import Mathlib

/-!
Verification of the "Of The Day" LED-matrix plugin (`src/manager.py`).

The development shallowly embeds the plugin's pure logic:

* the Python-style whitespace split used by `_wrap_text` (`pySplit`),
* the greedy word wrapper `_wrap_text` (`wrapText` with helpers
  `processWord`, `wrapLoop`, `truncRev`),
* the day resolver `_load_todays_items` / `update`
  (`loadTodaysItems`, `resolveItems`, `update`),
* the rotation scheduler `display` (`displayCore`, `display`), where the
  host rendering primitive is an injected fallible oracle and the Python
  `try/except` blocks become explicit `Except` handling,
* the dual-path glyph routine `_draw_bdf_text` (`drawBdfText`).

Machine integers are modelled as `Nat`/`Int`.  Wall-clock timestamps and
the configured intervals are modelled as integers (epoch seconds): the
scheduler and the day resolver only subtract and compare them, so the
embedding uses only that ordered-group structure.
-/

namespace OfTheDay

/-- A calendar date, abstracted to the data the plugin reads from it:
the year and the ordinal day of the year (`timetuple().tm_yday`). -/
structure Date where
  year : Int
  dayOfYear : Nat
deriving DecidableEq, Repr

/-- A day entry: the JSON object for one day, a string-keyed field map. -/
abbrev Item := List (String × String)

/-- A category dataset: JSON object keyed by string day-of-year numbers. -/
abbrev Dataset := List (String × Item)

/-- Per-category configuration; `enabled` defaults to `True` in the code
(`.get('enabled', True)`). -/
structure CategoryConfig where
  enabled : Bool := true
deriving DecidableEq, Repr

/-- Plugin configuration (`config.get(...)` values read in `__init__`). -/
structure Config where
  update_interval : Int
  display_rotate_interval : Int
  subtitle_rotate_interval : Int
  categories : List (String × CategoryConfig)
  category_order : List String
deriving DecidableEq, Repr

/-- The mutable instance fields of `OfTheDayPlugin` that the day resolver
and the rotation scheduler read and write. -/
structure PluginState where
  current_day : Option Date
  current_items : List (String × Item)
  current_category_index : Nat
  rotation_state : Nat
  last_update : Int
  last_rotation_time : Int
  last_category_rotation_time : Int
  data_files : List (String × Dataset)
deriving DecidableEq, Repr

/-- One rendered frame, by semantic content: the "No Data" placeholder,
the "Error" placeholder, the title view, or the content view. -/
inductive Frame where
  | noData : Frame
  | error : Frame
  | title : String → Item → Frame
  | content : String → Item → Frame
deriving DecidableEq, Repr

/-! ## Python-style string helpers -/

/-- Whitespace characters recognised by Python's `str.split()`. -/
def isPySpace (c : Char) : Bool :=
  c = ' ' ∨ c = '\t' ∨ c = '\n' ∨ c = '\r' ∨ c = '\x0b' ∨ c = '\x0c'

/-- Worker for `pySplit`: scans the characters, accumulating the current
token in reverse; runs of whitespace separate tokens and produce no empty
tokens, exactly like Python's `str.split()` with no argument. -/
def pySplitAux : List Char → List Char → List String
  | [], acc => if acc.isEmpty then [] else [String.mk acc.reverse]
  | c :: cs, acc =>
    if isPySpace c then
      if acc.isEmpty then pySplitAux cs []
      else String.mk acc.reverse :: pySplitAux cs []
    else pySplitAux cs (c :: acc)

/-- Embedding of `text.split()`: split on runs of whitespace, discarding empties. -/
def pySplit (text : String) : List String :=
  pySplitAux text.data []

/-- Embedding of `sep.join(parts)` for a non-degenerate separator use as in the code
(`' '.join(current_line)`). -/
def pyJoin (sep : String) : List String → String
  | [] => ""
  | [a] => a
  | a :: rest => a ++ sep ++ pyJoin sep rest

/-! ## Text wrapper (`_wrap_text`) -/

/-- The `while len(truncated) > 0` loop of `_wrap_text`, lines 284-297:
the argument is the *reversed* character list of the current `truncated`
string, so dropping the head models `truncated = truncated[:-1]`.
Returns the emitted line `truncated + "..."` when some suffix-truncation
fits, and `none` when the string runs out without ever fitting. -/
def truncRev (measure : String → Nat) (max_width : Nat) : List Char → Option String
  | [] => none
  | c :: rest =>
    let truncated := String.mk (c :: rest).reverse
    if measure (truncated ++ "...") ≤ max_width then some (truncated ++ "...")
    else truncRev measure max_width rest

/-- The body of the `for word in words` loop of `_wrap_text` for a single
word: state is `(lines, current_line)`. -/
def processWord (measure : String → Nat) (max_width : Nat)
    (lines current_line : List String) (word : String) : List String × List String :=
  let test_line := if current_line.isEmpty then word else pyJoin " " (current_line ++ [word])
  if measure test_line ≤ max_width then
    (lines, current_line ++ [word])
  else if ¬ current_line.isEmpty then
    (lines ++ [pyJoin " " current_line], [word])
  else
    match truncRev measure max_width word.data.reverse with
    | some t => (lines ++ [t], current_line)
    | none => (lines ++ [String.mk (word.data.take 10) ++ "..."], current_line)

/-- The `for word in words` loop, including the
`if len(lines) >= max_lines: break` check at the end of each iteration. -/
def wrapLoop (measure : String → Nat) (max_width : Nat) (max_lines : Nat) :
    List String → List String → List String → List String × List String
  | [], lines, current_line => (lines, current_line)
  | word :: words, lines, current_line =>
    let st := processWord measure max_width lines current_line word
    if max_lines ≤ st.1.length then st
    else wrapLoop measure max_width max_lines words st.1 st.2

/-- Embedding of `_wrap_text(text, max_width, font, max_lines)`, with the width
measurement (`get_text_width` and its fallbacks) abstracted as `measure`. -/
def wrapText (measure : String → Nat) (text : String) (max_width : Nat)
    (max_lines : Nat) : List String :=
  if text = "" then [""]
  else
    let st := wrapLoop measure max_width max_lines (pySplit text) [] []
    let lines :=
      if ¬ st.2.isEmpty ∧ st.1.length < max_lines then st.1 ++ [pyJoin " " st.2]
      else st.1
    lines.take max_lines

/-- The fallback width measure the code uses for non-PIL fonts:
`len(text) * 6`. -/
def measure6 (s : String) : Nat := s.length * 6

/-- Executable "ends with …" test: does the string end in three dots? -/
def ends3Dots (s : String) : Bool :=
  s.data.reverse.take 3 = ['.', '.', '.']

/-- The guarantee `_wrap_text` actually provides for an emitted line:
it fits, or it is a single whitespace-delimited token of the input
(emitted unmeasured), or it is a truncation line ending in three dots. -/
def GoodLine (measure : String → Nat) (max_width : Nat) (toks : List String)
    (L : String) : Prop :=
  measure L ≤ max_width ∨ L ∈ toks ∨ ends3Dots L = true

/-! ## Day resolver (`_load_todays_items`, `update`) -/

/-- The `for category_name, data in self.data_files.items()` loop of
`_load_todays_items`: keep, in file order, each category whose dataset has
an entry under the key `str(day_of_year)`. -/
def resolveItems (data_files : List (String × Dataset)) (today : Date) :
    List (String × Item) :=
  data_files.filterMap fun nd =>
    (List.lookup (toString today.dayOfYear) nd.2).map fun it => (nd.1, it)

/-- Embedding of `_load_todays_items`, lines 165-191 (`date.today()` passed in as
`today`). -/
def loadTodaysItems (p : PluginState) (today : Date) : PluginState :=
  if p.current_day = some today ∧ ¬ p.current_items.isEmpty then p
  else
    { p with current_day := some today,
             current_items := resolveItems p.data_files today }

/-- Embedding of `update`, lines 193-207 (`time.time()` passed in as `now`,
`date.today()` as `today`). -/
def update (cfg : Config) (s : PluginState) (now : Int) (today : Date) :
    PluginState :=
  if now - s.last_update < cfg.update_interval then s
  else
    let s1 := { s with last_update := now }
    if s1.current_day ≠ some today then loadTodaysItems s1 today else s1

/-! ## Rotation scheduler (`display`) -/

/-- The list comprehension at lines 222-224: categories of
`category_order` that have a resolved item today and are enabled
(`.get('enabled', True)`). -/
def enabledCategories (cfg : Config) (s : PluginState) : List String :=
  cfg.category_order.filter fun cat =>
    (List.lookup cat s.current_items).isSome &&
      ((List.lookup cat cfg.categories).getD {}).enabled

/-- A host rendering primitive: renders one frame, possibly raising.
`_display_title` / `_display_content` and everything they call are behind
this oracle. -/
abbrev Renderer := Frame → Except Unit Unit

/-- Dispatch of the rendering call at lines 249-252: the chosen frame is
handed to the host renderer; an exception there carries the (already
updated) state to the `except` handler. -/
def renderStep (render : Renderer) (s2 : PluginState) (frame : Frame) :
    PluginState × Except Unit Frame :=
  match render frame with
  | Except.ok _ => (s2, Except.ok frame)
  | Except.error e => (s2, Except.error e)

/-- The `try:` block of `display`, lines 220-252.  The returned state
reflects all field assignments made before a possible exception, because
Python instance-field mutations persist when the `try` body raises: the
`.error` case arises from the `IndexError` of
`enabled_categories[self.current_category_index]` (modelled as the `none`
case of list lookup) or from an exception inside the rendering calls. -/
def displayCore (cfg : Config) (render : Renderer) (s : PluginState)
    (now : Int) : PluginState × Except Unit Frame :=
  let enabled_categories := enabledCategories cfg s
  if enabled_categories.isEmpty then (s, Except.ok Frame.noData)
  else
    let s1 :=
      if cfg.display_rotate_interval ≤ now - s.last_category_rotation_time then
        { s with
            current_category_index :=
              (s.current_category_index + 1) % enabled_categories.length,
            last_category_rotation_time := now,
            rotation_state := 0,
            last_rotation_time := now }
      else s
    match enabled_categories[s1.current_category_index]? with
    | none => (s1, Except.error ())
    | some category_name =>
      let item_data := (List.lookup category_name s.current_items).getD []
      let s2 :=
        if cfg.subtitle_rotate_interval ≤ now - s1.last_rotation_time then
          { s1 with rotation_state := (s1.rotation_state + 1) % 2,
                    last_rotation_time := now }
        else s1
      let frame :=
        if s2.rotation_state = 0 then Frame.title category_name item_data
        else Frame.content category_name item_data
      renderStep render s2 frame

/-- Embedding of `display`, lines 209-256: the early "no data" return at line 216, then
the `try` body, with the `except Exception` handler at lines 254-256
rendering the "Error" placeholder.  The function is total: exceptions of
the render path never escape it. -/
def display (cfg : Config) (render : Renderer) (s : PluginState) (now : Int) :
    PluginState × Frame :=
  if s.current_items.isEmpty then (s, Frame.noData)
  else
    match displayCore cfg render s now with
    | (s', Except.ok f) => (s', f)
    | (s', Except.error _) => (s', Frame.error)

/-- A renderer that always succeeds. -/
def okRender : Renderer := fun _ => Except.ok ()

/-- A renderer that always raises. -/
def failRender : Renderer := fun _ => Except.error ()

/-! ## Glyph renderer (`_draw_bdf_text`) -/

/-- An RGB color. -/
abbrev Color := Nat × Nat × Nat

/-- Pixel extents of the display (`display_manager.width` / `.height`). -/
structure Dims where
  width : Int
  height : Int
deriving DecidableEq, Repr

/-- One primitive drawing operation issued to the shared canvas. -/
inductive DrawOp where
  | point : Int → Int → Color → DrawOp
deriving DecidableEq, Repr

/-- The canvas, as the sequence of operations drawn onto it. -/
abbrev Canvas := List DrawOp

/-- A PIL font handle: either a loaded `ImageFont.ImageFont` or the result
of `ImageFont.load_default()`. -/
inductive PILFont where
  | handle : Nat → PILFont
  | default : PILFont
deriving DecidableEq, Repr

/-- One loaded glyph (`font.glyph` after `load_char`): a byte-packed
1-bit bitmap with its metrics. -/
structure Glyph where
  rows : Nat
  width : Nat
  pitch : Nat
  buffer : List Nat
  bitmap_left : Int
  bitmap_top : Int
  advance : Int

/-- A `freetype.Face`: reading the ascender and loading a glyph are host
operations that may raise. -/
structure Face where
  ascender : Except Unit Int
  loadChar : Char → Except Unit Glyph

/-- The runtime-type dispatch of `_draw_bdf_text`: a PIL font, a FreeType
face, or anything else. -/
inductive FontV where
  | pil : Nat → FontV
  | face : Face → FontV
  | other : FontV

/-- The host's native text-drawing primitive (`draw.text`), which may
raise. -/
abbrev DrawText := Canvas → PILFont → String → Int → Int → Color → Except Unit Canvas

/-- The per-glyph double loop of `_draw_bdf_text`, lines 341-356: every
set bit whose byte index is in range and whose pixel lands inside the
canvas produces one `draw.point`; everything else is skipped. -/
def renderGlyph (dims : Dims) (baseline_y : Int) (color : Color)
    (current_x : Int) (g : Glyph) : List DrawOp :=
  (List.range g.rows).flatMap fun i =>
    (List.range g.width).filterMap fun j =>
      let byte_index := i * g.pitch + j / 8
      if byte_index < g.buffer.length then
        if (g.buffer.getD byte_index 0).testBit (7 - j % 8) then
          let pixel_x := current_x + g.bitmap_left + (j : Int)
          let pixel_y := baseline_y - g.bitmap_top + (i : Int)
          if 0 ≤ pixel_x ∧ pixel_x < dims.width ∧ 0 ≤ pixel_y ∧ pixel_y < dims.height then
            some (DrawOp.point pixel_x pixel_y color)
          else none
        else none
      else none

/-- The `for char in text` loop, lines 333-357: `load_char` may raise (the
exception then reaches the outer handler); each glyph's operations are
appended and the cursor advances by the glyph's advance width. -/
def renderGlyphsLoop (face : Face) (dims : Dims) (baseline_y : Int)
    (color : Color) : List Char → Int → Canvas → Except Unit Canvas
  | [], _, canvas => Except.ok canvas
  | ch :: rest, current_x, canvas =>
    match face.loadChar ch with
    | Except.error e => Except.error e
    | Except.ok g =>
      renderGlyphsLoop face dims baseline_y color rest (current_x + g.advance)
        (canvas ++ renderGlyph dims baseline_y color current_x g)

/-- The `try` body of `_draw_bdf_text`, lines 308-357.  `freetypeAvail`
models whether `import freetype` succeeds; `drawText` is the host
`draw.text` primitive.  Any exception escaping this body reaches the
handler in `drawBdfText`. -/
def drawBdfBody (freetypeAvail : Bool) (drawText : DrawText) (dims : Dims)
    (canvas : Canvas) (font : FontV) (text : String) (x y : Int)
    (color : Color) : Except Unit Canvas :=
  match font with
  | FontV.pil f => drawText canvas (PILFont.handle f) text x y color
  | f =>
    if ¬ freetypeAvail then drawText canvas PILFont.default text x y color
    else
      match f with
      | FontV.face face =>
        let ascender_px :=
          match face.ascender with
          | Except.ok a => a
          | Except.error _ => 0
        let baseline_y := y + ascender_px
        renderGlyphsLoop face dims baseline_y color text.data x canvas
      | _ => Except.ok canvas

/-- Embedding of `_draw_bdf_text`, lines 306-364, exception structure: the whole body
runs under `try`; on an exception the handler retries with the default
font under its own bare `try/except: pass`. -/
def drawBdfText (freetypeAvail : Bool) (drawText : DrawText) (dims : Dims)
    (canvas : Canvas) (font : FontV) (text : String) (x y : Int)
    (color : Color) : Except Unit Canvas :=
  match drawBdfBody freetypeAvail drawText dims canvas font text x y color with
  | Except.ok c => Except.ok c
  | Except.error _ =>
    match drawText canvas PILFont.default text x y color with
    | Except.ok c => Except.ok c
    | Except.error _ => Except.ok canvas

/-! ## Concrete fixtures used by witnesses and counterexamples -/

/-- A concrete day entry. -/
def itemW : Item :=
  [("title", "serendipity"), ("subtitle", "noun"),
   ("description", "finding something good")]

/-- A concrete dataset with entries for days 100 and 101. -/
def dsW : Dataset := [("100", itemW), ("101", [("title", "petrichor")])]

/-- A concrete configuration with one enabled category. -/
def cfgW : Config :=
  { update_interval := 3600, display_rotate_interval := 20,
    subtitle_rotate_interval := 10, categories := [("words", {})],
    category_order := ["words"] }

/-- A concrete state: day 100 resolved, index 0, all timers at 1000. -/
def sW : PluginState :=
  { current_day := some ⟨2025, 100⟩, current_items := [("words", itemW)],
    current_category_index := 0, rotation_state := 0, last_update := 1000,
    last_rotation_time := 1000, last_category_rotation_time := 1000,
    data_files := [("words", dsW)] }

/-- State `sW` with a stale category index that is out of range for the
single-element eligible list. -/
def sOOB : PluginState := { sW with current_category_index := 1 }

/-- A face whose metric read and glyph loads always raise. -/
def failFace : Face :=
  { ascender := Except.error (), loadChar := fun _ => Except.error () }

/-- A `draw.text` primitive that always raises. -/
def failDraw : DrawText := fun _ _ _ _ _ _ => Except.error ()

/-! ## Helper lemmas -/

/-- If the eligible-category list is non-empty then `current_items` is
non-empty, so `display` does not take the early "no data" return. -/
theorem items_ne_of_enabled_ne_nil {cfg : Config} {s : PluginState}
    (h : enabledCategories cfg s ≠ []) : s.current_items.isEmpty = false := by
  by_contra hI
  apply h
  have hnil : s.current_items = [] := by
    cases hcase : s.current_items with
    | nil => rfl
    | cons a l => rw [hcase] at hI; simp [List.isEmpty] at hI
  unfold enabledCategories
  rw [hnil]
  apply List.filter_eq_nil_iff.mpr
  intro a _
  simp [List.lookup]

/-- The state component of `display` is the state component of the `try`
body: the `except` handler changes only the rendered frame. -/
theorem display_fst (cfg : Config) (render : Renderer) (s : PluginState)
    (now : Int) (hI : s.current_items.isEmpty = false) :
    (display cfg render s now).1 = (displayCore cfg render s now).1 := by
  unfold display
  rw [hI]
  rcases h : displayCore cfg render s now with ⟨s', f⟩
  cases f <;> simp

/-- Splitting an all-whitespace character list yields no tokens. -/
theorem pySplitAux_all_space : ∀ cs : List Char,
    (∀ c ∈ cs, isPySpace c = true) → pySplitAux cs [] = [] := by
  intro cs
  induction cs with
  | nil => intro _; rfl
  | cons c cs ih =>
    intro h
    have hc : isPySpace c = true := h c (List.mem_cons_self c cs)
    simp only [pySplitAux, hc, if_true, List.isEmpty_nil]
    exact ih fun d hd => h d (List.mem_cons_of_mem c hd)

/-- The state component of `renderStep` is the state it was given. -/
theorem renderStep_fst (render : Renderer) (s2 : PluginState) (f : Frame) :
    (renderStep render s2 f).1 = s2 := by
  unfold renderStep; cases render f <;> rfl

/-- Lemma: `renderStep` keeps the state it is given, whatever the renderer does. -/
theorem renderStep_eta (render : Renderer) (s2 : PluginState) (f : Frame) :
    renderStep render s2 f = (s2, (renderStep render s2 f).2) := by
  unfold renderStep; cases render f <;> rfl

/-- Evaluation of the `try` body on a tick where the category timer
fires: the index advances modulo the current list length, the mode and
both timers reset, and (with a positive subtitle interval) the mode timer
does not also fire, so the title frame is rendered. -/
theorem displayCore_fired (cfg : Config) (render : Renderer)
    (s : PluginState) (now : Int)
    (hNE : enabledCategories cfg s ≠ [])
    (hFire : cfg.display_rotate_interval ≤ now - s.last_category_rotation_time)
    (hPos : 0 < cfg.subtitle_rotate_interval) :
    ∃ cat : String,
      (enabledCategories cfg s)[(s.current_category_index + 1) %
          (enabledCategories cfg s).length]? = some cat ∧
      displayCore cfg render s now =
        ({ s with
            current_category_index := (s.current_category_index + 1) %
              (enabledCategories cfg s).length,
            last_category_rotation_time := now,
            rotation_state := 0,
            last_rotation_time := now },
         (renderStep render
            { s with
                current_category_index := (s.current_category_index + 1) %
                  (enabledCategories cfg s).length,
                last_category_rotation_time := now,
                rotation_state := 0,
                last_rotation_time := now }
            (Frame.title cat ((List.lookup cat s.current_items).getD []))).2) := by
  have hlen : 0 < (enabledCategories cfg s).length := List.length_pos.mpr hNE
  have hidx : (s.current_category_index + 1) % (enabledCategories cfg s).length <
      (enabledCategories cfg s).length := Nat.mod_lt _ hlen
  have hE : (enabledCategories cfg s).isEmpty = false := by
    cases h : enabledCategories cfg s with
    | nil => exact absurd h hNE
    | cons a l => rfl
  refine ⟨(enabledCategories cfg s).get ⟨_, hidx⟩, ?_, ?_⟩
  · exact List.getElem?_eq_getElem hidx
  · have hNoMode : ¬ (cfg.subtitle_rotate_interval ≤ (0 : Int)) := not_le.mpr hPos
    simp only [displayCore, hE, Bool.false_eq_true, if_false, if_pos hFire]
    simp only [List.getElem?_eq_getElem hidx]
    simp [sub_self, hNoMode, List.get_eq_getElem]
    exact renderStep_eta render _ _

/-- On a tick where the category timer fires, the resulting index is
`(previous + 1) mod N` — with no positivity assumption on the subtitle
interval, since the mode timer does not touch the index. -/
theorem displayCore_fst_fired (cfg : Config) (render : Renderer)
    (s : PluginState) (now : Int)
    (hNE : enabledCategories cfg s ≠ [])
    (hFire : cfg.display_rotate_interval ≤ now - s.last_category_rotation_time) :
    (displayCore cfg render s now).1.current_category_index =
      (s.current_category_index + 1) % (enabledCategories cfg s).length := by
  have hlen : 0 < (enabledCategories cfg s).length := List.length_pos.mpr hNE
  have hidx : (s.current_category_index + 1) % (enabledCategories cfg s).length <
      (enabledCategories cfg s).length := Nat.mod_lt _ hlen
  have hE : (enabledCategories cfg s).isEmpty = false := by
    cases h : enabledCategories cfg s with
    | nil => exact absurd h hNE
    | cons a l => rfl
  simp only [displayCore, hE, Bool.false_eq_true, if_false, if_pos hFire]
  simp only [List.getElem?_eq_getElem hidx]
  simp only [renderStep_fst]
  split <;> rfl

/-- On a tick where the category timer does not fire and the stale index
is out of range, the `try` body stops with the `IndexError` and the state
is unchanged. -/
theorem displayCore_unfired_oob (cfg : Config) (render : Renderer)
    (s : PluginState) (now : Int)
    (hNE : enabledCategories cfg s ≠ [])
    (hNF : ¬ (cfg.display_rotate_interval ≤ now - s.last_category_rotation_time))
    (hOOB : (enabledCategories cfg s).length ≤ s.current_category_index) :
    displayCore cfg render s now = (s, Except.error ()) := by
  have hE : (enabledCategories cfg s).isEmpty = false := by
    cases h : enabledCategories cfg s with
    | nil => exact absurd h hNE
    | cons a l => rfl
  have hnone : (enabledCategories cfg s)[s.current_category_index]? = none :=
    List.getElem?_eq_none hOOB
  simp only [displayCore, hE, Bool.false_eq_true, if_false, if_neg hNF]
  simp [hnone]

/-- Evaluation of the `try` body on a tick where the category timer does
not fire and the index is in range: only the mode timer can act. -/
theorem displayCore_unfired (cfg : Config) (render : Renderer)
    (s : PluginState) (now : Int)
    (hNF : ¬ (cfg.display_rotate_interval ≤ now - s.last_category_rotation_time))
    (hIdx : s.current_category_index < (enabledCategories cfg s).length) :
    ∃ cat : String,
      (enabledCategories cfg s)[s.current_category_index]? = some cat ∧
      displayCore cfg render s now =
        renderStep render
          (if cfg.subtitle_rotate_interval ≤ now - s.last_rotation_time then
            { s with rotation_state := (s.rotation_state + 1) % 2,
                     last_rotation_time := now }
          else s)
          (if (if cfg.subtitle_rotate_interval ≤ now - s.last_rotation_time then
                 { s with rotation_state := (s.rotation_state + 1) % 2,
                          last_rotation_time := now }
               else s).rotation_state = 0 then
             Frame.title cat ((List.lookup cat s.current_items).getD [])
           else Frame.content cat ((List.lookup cat s.current_items).getD [])) := by
  have hE : (enabledCategories cfg s).isEmpty = false := by
    cases h : enabledCategories cfg s with
    | nil => rw [h] at hIdx; exact absurd hIdx (by simp)
    | cons a l => rfl
  refine ⟨(enabledCategories cfg s).get ⟨_, hIdx⟩, List.getElem?_eq_getElem hIdx, ?_⟩
  simp only [displayCore, hE, Bool.false_eq_true, if_false, if_neg hNF]
  simp only [List.getElem?_eq_getElem hIdx]
  simp [List.get_eq_getElem]

/-- Joining a one-element list is that element. -/
theorem pyJoin_singleton (sep a : String) : pyJoin sep [a] = a := rfl

/-- Appending `"..."` makes `ends3Dots` true. -/
theorem ends3Dots_append (t : String) : ends3Dots (t ++ "...") = true := by
  unfold ends3Dots
  rw [String.data_append]
  simp

/-- Every line the truncation loop emits ends in three dots. -/
theorem truncRev_some_ends (measure : String → Nat) (max_width : Nat) :
    ∀ (rcs : List Char) (t : String),
      truncRev measure max_width rcs = some t → ends3Dots t = true := by
  intro rcs
  induction rcs with
  | nil => intro t h; simp [truncRev] at h
  | cons c rest ih =>
    intro t h
    unfold truncRev at h
    by_cases hfit :
        measure (String.mk ((c :: rest).reverse) ++ "...") ≤ max_width
    · simp only [hfit, if_true] at h
      rw [← Option.some_inj.mp h]
      exact ends3Dots_append _
    · simp only [hfit, if_false] at h
      exact ih t h

/-- One step of the word loop preserves the wrap guarantee: all emitted
lines are `GoodLine`, and a non-empty accumulating line joins to a
`GoodLine`. -/
theorem processWord_good (measure : String → Nat) (max_width : Nat)
    (toks lines current_line : List String) (word : String)
    (hl : ∀ L ∈ lines, GoodLine measure max_width toks L)
    (hc : current_line ≠ [] → GoodLine measure max_width toks (pyJoin " " current_line))
    (hw : word ∈ toks) :
    (∀ L ∈ (processWord measure max_width lines current_line word).1,
      GoodLine measure max_width toks L) ∧
    ((processWord measure max_width lines current_line word).2 ≠ [] →
      GoodLine measure max_width toks
        (pyJoin " " (processWord measure max_width lines current_line word).2)) := by
  unfold processWord
  by_cases hfit :
      measure (if current_line.isEmpty then word
               else pyJoin " " (current_line ++ [word])) ≤ max_width
  · simp only [hfit, if_true]
    refine ⟨hl, fun _ => ?_⟩
    by_cases hcur : current_line.isEmpty
    · have : current_line = [] := List.isEmpty_iff.mp hcur
      rw [this, List.nil_append, pyJoin_singleton]
      rw [this] at hfit
      simp only [List.isEmpty_nil, if_true] at hfit
      exact Or.inl hfit
    · rw [if_neg hcur] at hfit
      exact Or.inl hfit
  · simp only [hfit, if_false]
    by_cases hcur : current_line.isEmpty
    · have hnil : current_line = [] := List.isEmpty_iff.mp hcur
      simp only [hcur, not_true, if_false]
      cases htr : truncRev measure max_width word.data.reverse with
      | some t =>
        refine ⟨?_, fun hne => absurd hnil (by rw [hnil] at hne ⊢; exact hne)⟩
        intro L hL
        rcases List.mem_append.mp hL with h | h
        · exact hl L h
        · rw [List.mem_singleton.mp h]
          exact Or.inr (Or.inr (truncRev_some_ends measure max_width _ t htr))
      | none =>
        refine ⟨?_, fun hne => absurd hnil (by rw [hnil] at hne ⊢; exact hne)⟩
        intro L hL
        rcases List.mem_append.mp hL with h | h
        · exact hl L h
        · rw [List.mem_singleton.mp h]
          exact Or.inr (Or.inr (ends3Dots_append _))
    · simp only [if_pos hcur]
      constructor
      · intro L hL
        rcases List.mem_append.mp hL with h | h
        · exact hl L h
        · rw [List.mem_singleton.mp h]
          exact hc fun h0 => by rw [h0] at hcur; exact hcur rfl
      · intro _
        rw [pyJoin_singleton]
        exact Or.inr (Or.inl hw)

/-- The whole word loop preserves the wrap guarantee. -/
theorem wrapLoop_good (measure : String → Nat) (max_width max_lines : Nat)
    (toks : List String) :
    ∀ (ws lines current_line : List String),
      (∀ w ∈ ws, w ∈ toks) →
      (∀ L ∈ lines, GoodLine measure max_width toks L) →
      (current_line ≠ [] → GoodLine measure max_width toks (pyJoin " " current_line)) →
      (∀ L ∈ (wrapLoop measure max_width max_lines ws lines current_line).1,
        GoodLine measure max_width toks L) ∧
      ((wrapLoop measure max_width max_lines ws lines current_line).2 ≠ [] →
        GoodLine measure max_width toks
          (pyJoin " " (wrapLoop measure max_width max_lines ws lines current_line).2)) := by
  intro ws
  induction ws with
  | nil => intro lines current_line _ hl hc; exact ⟨hl, hc⟩
  | cons w ws ih =>
    intro lines current_line hws hl hc
    have hw : w ∈ toks := hws w (List.mem_cons_self w ws)
    obtain ⟨hl2, hc2⟩ := processWord_good measure max_width toks lines
      current_line w hl hc hw
    unfold wrapLoop
    by_cases hbreak :
        max_lines ≤ (processWord measure max_width lines current_line w).1.length
    · simp only [hbreak, if_true]
      exact ⟨hl2, hc2⟩
    · simp only [hbreak, if_false]
      exact ih _ _ (fun v hv => hws v (List.mem_cons_of_mem w hv)) hl2 hc2

/-- Characterization of the truncation loop: it returns the longest
truncation (with `"..."` appended) that fits, scanning from the full
token downward, and `none` exactly when no non-empty truncation fits.
The argument is the reversed character list, as in `truncRev`. -/
theorem truncRev_char (measure : String → Nat) (max_width : Nat) :
    ∀ rcs : List Char,
      (∃ k, 1 ≤ k ∧ k ≤ rcs.length ∧
        measure (String.mk (rcs.reverse.take k) ++ "...") ≤ max_width ∧
        (∀ j, k < j → j ≤ rcs.length →
          ¬ measure (String.mk (rcs.reverse.take j) ++ "...") ≤ max_width) ∧
        truncRev measure max_width rcs =
          some (String.mk (rcs.reverse.take k) ++ "...")) ∨
      ((∀ j, 1 ≤ j → j ≤ rcs.length →
          ¬ measure (String.mk (rcs.reverse.take j) ++ "...") ≤ max_width) ∧
        truncRev measure max_width rcs = none) := by
  intro rcs
  induction rcs with
  | nil =>
    right
    refine ⟨?_, rfl⟩
    intro j h1 h2
    exact absurd (le_trans h1 h2) (by decide)
  | cons c rest ih =>
    have htake_full :
        (c :: rest).reverse.take (rest.length + 1) = (c :: rest).reverse := by
      apply List.take_of_length_le
      rw [List.length_reverse]
      exact Nat.le_refl _
    have htake_lt : ∀ j, j ≤ rest.length →
        (c :: rest).reverse.take j = rest.reverse.take j := by
      intro j hj
      rw [List.reverse_cons]
      exact List.take_append_of_le_length (by rw [List.length_reverse]; exact hj)
    by_cases hfit : measure (String.mk ((c :: rest).reverse) ++ "...") ≤ max_width
    · left
      refine ⟨rest.length + 1, Nat.succ_le_succ (Nat.zero_le _), le_refl _, ?_, ?_, ?_⟩
      · rw [htake_full]; exact hfit
      · intro j hj1 hj2
        exact absurd (lt_of_lt_of_le hj1 hj2) (lt_irrefl _)
      · rw [htake_full]
        unfold truncRev
        simp only [hfit, if_true]
    · rcases ih with ⟨k, hk1, hkle, hfitk, hmax, heq⟩ | ⟨hall, heq⟩
      · left
        refine ⟨k, hk1, le_trans hkle (Nat.le_succ _), ?_, ?_, ?_⟩
        · rw [htake_lt k hkle]; exact hfitk
        · intro j hkj hjle
          by_cases hj : j ≤ rest.length
          · rw [htake_lt j hj]; exact hmax j hkj hj
          · have hj2 : j = rest.length + 1 :=
              le_antisymm hjle (Nat.succ_le_of_lt (Nat.lt_of_not_le hj))
            rw [hj2, htake_full]
            exact hfit
        · unfold truncRev
          simp only [hfit, if_false]
          rw [heq, htake_lt k hkle]
      · right
        constructor
        · intro j hj1 hjle
          by_cases hj : j ≤ rest.length
          · rw [htake_lt j hj]; exact hall j hj1 hj
          · have hj2 : j = rest.length + 1 :=
              le_antisymm hjle (Nat.succ_le_of_lt (Nat.lt_of_not_le hj))
            rw [hj2, htake_full]
            exact hfit
        · unfold truncRev
          simp only [hfit, if_false]
          exact heq

section Claims

/-! ## Claim theorems -/

/-- C6: on a tick with zero eligible categories, `display` renders the
"No Data" placeholder and leaves the whole state (in particular
`category_index`, `mode` and both timers) unchanged. -/
theorem c6_no_data_no_transition (cfg : Config) (render : Renderer)
    (s : PluginState) (now : Int) (h : enabledCategories cfg s = []) :
    display cfg render s now = (s, Frame.noData) := by
  by_cases hI : s.current_items.isEmpty
  · simp [display, hI]
  · simp [display, hI, displayCore, h]

/-- Witness for C6: a state whose single configured category is disabled
is ineligible, and the tick renders "No Data" without touching the state. -/
theorem c6_witness :
    enabledCategories
        { update_interval := 3600, display_rotate_interval := 20,
          subtitle_rotate_interval := 10,
          categories := [("w", { enabled := false })],
          category_order := ["w"] }
        { current_day := none, current_items := [("w", [("title", "x")])],
          current_category_index := 0, rotation_state := 1,
          last_update := 0, last_rotation_time := 0,
          last_category_rotation_time := 0, data_files := [] } = [] ∧
    display
        { update_interval := 3600, display_rotate_interval := 20,
          subtitle_rotate_interval := 10,
          categories := [("w", { enabled := false })],
          category_order := ["w"] }
        okRender
        { current_day := none, current_items := [("w", [("title", "x")])],
          current_category_index := 0, rotation_state := 1,
          last_update := 0, last_rotation_time := 0,
          last_category_rotation_time := 0, data_files := [] } 100 =
      ({ current_day := none, current_items := [("w", [("title", "x")])],
         current_category_index := 0, rotation_state := 1,
         last_update := 0, last_rotation_time := 0,
         last_category_rotation_time := 0, data_files := [] }, Frame.noData) :=
  ⟨by decide, c6_no_data_no_transition _ okRender _ 100 (by decide)⟩

/-- C7, counterexample to the claim as stated: with `max_lines = 0` the
empty input still returns one line, so the output length exceeds
`max_lines`. -/
theorem c7_counterexample :
    ¬ ((wrapText measure6 "" 6 0).length ≤ 0) := by decide

/-- C7 (amended): whenever `max_lines ≥ 1` — which includes every call the
plugin makes — the wrapper returns at most `max_lines` lines. -/
theorem c7_line_cap (measure : String → Nat) (text : String)
    (max_width max_lines : Nat) (h : 1 ≤ max_lines) :
    (wrapText measure text max_width max_lines).length ≤ max_lines := by
  unfold wrapText
  by_cases ht : text = ""
  · simp [ht, h]
  · simp only [ht, if_false]
    refine le_trans (List.length_take ..).le ?_
    exact min_le_left _ _

/-- Witness for C7: the cap holds at a concrete call. -/
theorem c7_witness :
    (1 : Nat) ≤ 2 ∧ (wrapText measure6 "The quick brown fox jumps" 30 2).length ≤ 2 :=
  ⟨by decide, c7_line_cap measure6 "The quick brown fox jumps" 30 2 (by decide)⟩

/-- C10: the literally empty input returns exactly one line (the empty
string), while any non-empty all-whitespace input returns zero lines. -/
theorem c10_empty_vs_whitespace (measure : String → Nat)
    (max_width max_lines : Nat) :
    wrapText measure "" max_width max_lines = [""] ∧
      ∀ text : String, text ≠ "" → (∀ c ∈ text.data, isPySpace c = true) →
        wrapText measure text max_width max_lines = [] := by
  constructor
  · simp [wrapText]
  · intro text ht hsp
    have hsplit : pySplit text = [] := pySplitAux_all_space text.data hsp
    simp [wrapText, ht, hsplit, wrapLoop]

/-- Witness for C10: `""` gives one empty line; `" \t "` gives no lines. -/
theorem c10_witness :
    wrapText measure6 "" 30 10 = [""] ∧ wrapText measure6 " \t " 30 10 = [] :=
  ⟨(c10_empty_vs_whitespace measure6 30 10).1,
   (c10_empty_vs_whitespace measure6 30 10).2 " \t " (by decide) (by decide)⟩

/-- C4: on a tick with a non-empty eligible list where the category timer
has elapsed, the index advances modulo the current length, the mode is
reset to TITLE (0), both timers are reset to `now`, and — because the
mode-timer comparison afterwards uses the just-reset timestamp — a
positive subtitle interval means the mode does not also toggle. -/
theorem c4_category_timer_fire (cfg : Config) (render : Renderer)
    (s : PluginState) (now : Int)
    (hNE : enabledCategories cfg s ≠ [])
    (hFire : cfg.display_rotate_interval ≤ now - s.last_category_rotation_time)
    (hPos : 0 < cfg.subtitle_rotate_interval) :
    (display cfg render s now).1.current_category_index =
        (s.current_category_index + 1) % (enabledCategories cfg s).length ∧
    (display cfg render s now).1.rotation_state = 0 ∧
    (display cfg render s now).1.last_category_rotation_time = now ∧
    (display cfg render s now).1.last_rotation_time = now := by
  obtain ⟨cat, hcat, hcore⟩ := displayCore_fired cfg render s now hNE hFire hPos
  have hI := items_ne_of_enabled_ne_nil hNE
  rw [display_fst cfg render s now hI, hcore]
  exact ⟨rfl, rfl, rfl, rfl⟩

/-- Witness for C4: at the concrete fixture the timer fires and all four
state components come out as stated. -/
theorem c4_witness :
    (display cfgW okRender sW 1025).1.current_category_index =
        (sW.current_category_index + 1) % (enabledCategories cfgW sW).length ∧
    (display cfgW okRender sW 1025).1.rotation_state = 0 ∧
    (display cfgW okRender sW 1025).1.last_category_rotation_time = 1025 ∧
    (display cfgW okRender sW 1025).1.last_rotation_time = 1025 :=
  c4_category_timer_fire cfgW okRender sW 1025 (by decide) (by decide) (by decide)

/-- C1, counterexample to the claim as stated: a tick with a non-empty
eligible list (one category) and a stale index 1 that the category timer
(not yet elapsed) never reduces.  The indexing step fails — the tick
renders the "Error" placeholder instead of clamping or reducing the index
modulo the new length. -/
theorem c1_counterexample :
    enabledCategories cfgW sOOB = ["words"] ∧
    sOOB.current_category_index = 1 ∧
    display cfgW okRender sOOB 1005 = (sOOB, Frame.error) := by decide

/-- C1 (amended): the index is reduced modulo the current list length
only when the category timer fires (and is then in range); on a tick
where the timer has not fired and the stale index is out of range, the
lookup raises `IndexError`, which the top-level handler turns into the
"Error" placeholder, leaving the whole state unchanged. -/
theorem c1_index_modulo_only_on_fire (cfg : Config) (render : Renderer)
    (s : PluginState) (now : Int) (hNE : enabledCategories cfg s ≠ []) :
    (cfg.display_rotate_interval ≤ now - s.last_category_rotation_time →
      (display cfg render s now).1.current_category_index =
          (s.current_category_index + 1) % (enabledCategories cfg s).length ∧
      (display cfg render s now).1.current_category_index <
          (enabledCategories cfg s).length) ∧
    (¬ (cfg.display_rotate_interval ≤ now - s.last_category_rotation_time) →
      (enabledCategories cfg s).length ≤ s.current_category_index →
      display cfg render s now = (s, Frame.error)) := by
  have hI := items_ne_of_enabled_ne_nil hNE
  constructor
  · intro hFire
    have h := displayCore_fst_fired cfg render s now hNE hFire
    rw [display_fst cfg render s now hI]
    refine ⟨h, ?_⟩
    rw [h]
    exact Nat.mod_lt _ (List.length_pos.mpr hNE)
  · intro hNF hOOB
    have hcore := displayCore_unfired_oob cfg render s now hNE hNF hOOB
    simp [display, hI, hcore]

/-- Witness for C1: the fired tick advances `1 % 1 = 0`; the unfired tick
with the stale index renders the "Error" placeholder. -/
theorem c1_witness :
    ((display cfgW okRender sOOB 1025).1.current_category_index =
        (sOOB.current_category_index + 1) % (enabledCategories cfgW sOOB).length ∧
      (display cfgW okRender sOOB 1025).1.current_category_index <
        (enabledCategories cfgW sOOB).length) ∧
    display cfgW okRender sOOB 1005 = (sOOB, Frame.error) := by
  have h1 :=
    (c1_index_modulo_only_on_fire cfgW okRender sOOB 1025 (by decide)).1 (by decide)
  have h2 :=
    (c1_index_modulo_only_on_fire cfgW okRender sOOB 1005 (by decide)).2
      (by decide) (by decide)
  exact ⟨h1, h2⟩

/-- C5: within a stable category (timer not fired, index in range), the
mode toggles exactly when the mode timer has elapsed — resetting only the
mode timestamp and leaving the index and the category timestamp alone —
and stays put otherwise; a category switch forces the mode back to TITLE,
so the first frame shown for a newly entered category is a title frame. -/
theorem c5_mode_toggle (cfg : Config) (render : Renderer) (s : PluginState)
    (now : Int) :
    (enabledCategories cfg s ≠ [] →
      cfg.display_rotate_interval ≤ now - s.last_category_rotation_time →
      0 < cfg.subtitle_rotate_interval →
      (display cfg render s now).1.rotation_state = 0 ∧
      ((∀ f, render f = Except.ok ()) →
        ∃ cat item, (display cfg render s now).2 = Frame.title cat item)) ∧
    (¬ (cfg.display_rotate_interval ≤ now - s.last_category_rotation_time) →
      s.current_category_index < (enabledCategories cfg s).length →
      (cfg.subtitle_rotate_interval ≤ now - s.last_rotation_time →
        (display cfg render s now).1.rotation_state = (s.rotation_state + 1) % 2 ∧
        (display cfg render s now).1.last_rotation_time = now ∧
        (display cfg render s now).1.current_category_index =
          s.current_category_index ∧
        (display cfg render s now).1.last_category_rotation_time =
          s.last_category_rotation_time) ∧
      (¬ (cfg.subtitle_rotate_interval ≤ now - s.last_rotation_time) →
        (display cfg render s now).1 = s)) := by
  constructor
  · intro hNE hFire hPos
    have hI := items_ne_of_enabled_ne_nil hNE
    obtain ⟨cat, hcat, hcore⟩ := displayCore_fired cfg render s now hNE hFire hPos
    constructor
    · rw [display_fst cfg render s now hI, hcore]
    · intro hr
      refine ⟨cat, (List.lookup cat s.current_items).getD [], ?_⟩
      simp [display, hI, hcore, renderStep, hr]
  · intro hNF hIdx
    have hNE : enabledCategories cfg s ≠ [] := by
      intro h
      rw [h] at hIdx
      exact absurd hIdx (by simp)
    have hI := items_ne_of_enabled_ne_nil hNE
    obtain ⟨cat, hcat, hcore⟩ := displayCore_unfired cfg render s now hNF hIdx
    constructor
    · intro hMode
      rw [display_fst cfg render s now hI, hcore, renderStep_fst, if_pos hMode]
      exact ⟨rfl, rfl, rfl, rfl⟩
    · intro hMode
      rw [display_fst cfg render s now hI, hcore, renderStep_fst, if_neg hMode]

/-- Witness for C5: at the fixture, a mode-timer tick toggles TITLE to
CONTENT and resets only the mode timestamp; an idle tick changes nothing;
a category-switch tick comes back up in TITLE showing a title frame. -/
theorem c5_witness :
    ((display cfgW okRender sW 1012).1.rotation_state = (sW.rotation_state + 1) % 2 ∧
      (display cfgW okRender sW 1012).1.last_rotation_time = 1012 ∧
      (display cfgW okRender sW 1012).1.current_category_index =
        sW.current_category_index ∧
      (display cfgW okRender sW 1012).1.last_category_rotation_time =
        sW.last_category_rotation_time) ∧
    (display cfgW okRender sW 1003).1 = sW ∧
    (display cfgW okRender sW 1025).1.rotation_state = 0 ∧
    (∃ cat item, (display cfgW okRender sW 1025).2 = Frame.title cat item) := by
  have h1 :=
    ((c5_mode_toggle cfgW okRender sW 1012).2 (by decide) (by decide)).1 (by decide)
  have h2 :=
    ((c5_mode_toggle cfgW okRender sW 1003).2 (by decide) (by decide)).2 (by decide)
  have h3 :=
    (c5_mode_toggle cfgW okRender sW 1025).1 (by decide) (by decide) (by decide)
  exact ⟨h1, h2, h3.1, h3.2 fun f => rfl⟩

/-- C3, counterexample to the claim as stated: the date has advanced past
midnight (`current_day` differs from today) and the dataset has a day-101
entry, but the next `update()` call happens less than `update_interval`
after `last_update`, so it returns with `current_items` still holding the
day-100 entries — not day 101's. -/
theorem c3_counterexample :
    sW.current_day = some ⟨2025, 100⟩ ∧
    (⟨2025, 100⟩ : Date) ≠ (⟨2025, 101⟩ : Date) ∧
    List.lookup "101" dsW = some [("title", "petrichor")] ∧
    update cfgW sW 1500 ⟨2025, 101⟩ = sW ∧
    sW.current_items ≠ resolveItems sW.data_files ⟨2025, 101⟩ := by decide

/-- C3 (amended): `update` recomputes only when the update interval has
elapsed AND the date differs; before the interval elapses it is a strict
no-op, on a same-day call it never changes the items, and on the first
call with both conditions the items become today's resolved entries. -/
theorem c3_update_policy (cfg : Config) (s : PluginState) (now : Int)
    (today : Date) :
    (now - s.last_update < cfg.update_interval → update cfg s now today = s) ∧
    (cfg.update_interval ≤ now - s.last_update → s.current_day ≠ some today →
      (update cfg s now today).current_day = some today ∧
      (update cfg s now today).current_items = resolveItems s.data_files today) ∧
    (s.current_day = some today →
      (update cfg s now today).current_items = s.current_items ∧
      (update cfg s now today).current_day = s.current_day) := by
  refine ⟨?_, ?_, ?_⟩
  · intro h
    simp [update, h]
  · intro h hday
    have hlt : ¬ (now - s.last_update < cfg.update_interval) := not_lt.mpr h
    simp [update, hlt, loadTodaysItems, hday]
  · intro hday
    by_cases h : now - s.last_update < cfg.update_interval
    · simp [update, h]
    · simp [update, h, hday]

/-- Witness for C3: before the interval the call is a no-op even across
midnight; after the interval and across midnight the items become day
101's; after the interval but on the same day the items are untouched. -/
theorem c3_witness :
    update cfgW sW 1500 ⟨2025, 101⟩ = sW ∧
    ((update cfgW sW 5000 ⟨2025, 101⟩).current_day = some ⟨2025, 101⟩ ∧
      (update cfgW sW 5000 ⟨2025, 101⟩).current_items =
        resolveItems sW.data_files ⟨2025, 101⟩) ∧
    (update cfgW sW 5000 ⟨2025, 100⟩).current_items = sW.current_items := by
  have h1 := (c3_update_policy cfgW sW 1500 ⟨2025, 101⟩).1 (by decide)
  have h2 := (c3_update_policy cfgW sW 5000 ⟨2025, 101⟩).2.1 (by decide) (by decide)
  have h3 := (c3_update_policy cfgW sW 5000 ⟨2025, 100⟩).2.2 (by decide)
  exact ⟨h1, h2, h3.1⟩

/-- C9: exceptions in the render path never escape.  (a) Whenever the
`try` body of `display` stops with an exception — from the category
indexing or from inside the rendering calls — `display` returns normally
with the "Error" placeholder frame (and the state the body had reached).
(b) `_draw_bdf_text` returns normally for every font variant and every
behaviour of the host primitives: its nested handlers absorb every
failure. -/
theorem c9_no_propagation :
    (∀ (cfg : Config) (render : Renderer) (s : PluginState) (now : Int)
        (s2 : PluginState) (e : Unit),
      displayCore cfg render s now = (s2, Except.error e) →
      display cfg render s now = (s2, Frame.error)) ∧
    (∀ (freetypeAvail : Bool) (drawText : DrawText) (dims : Dims)
        (canvas : Canvas) (font : FontV) (text : String) (x y : Int)
        (color : Color),
      ∃ c, drawBdfText freetypeAvail drawText dims canvas font text x y color =
        Except.ok c) := by
  constructor
  · intro cfg render s now s2 e hcore
    by_cases hI : s.current_items.isEmpty
    · exfalso
      have hEn : enabledCategories cfg s = [] := by
        by_contra hne
        rw [items_ne_of_enabled_ne_nil hne] at hI
        exact Bool.false_ne_true hI
      simp [displayCore, hEn] at hcore
    · simp [display, hI, hcore]
  · intro freetypeAvail drawText dims canvas font text x y color
    unfold drawBdfText
    cases hb : drawBdfBody freetypeAvail drawText dims canvas font text x y color with
    | ok c => exact ⟨c, rfl⟩
    | error e =>
      cases hf : drawText canvas PILFont.default text x y color with
      | ok c => exact ⟨c, rfl⟩
      | error f => exact ⟨canvas, rfl⟩

/-- Witness for C9: with an always-raising renderer the `try` body of
`display` fails and the tick still returns, showing the "Error"
placeholder; with a face whose glyph loads raise and a `draw.text` that
also raises, `_draw_bdf_text` still returns normally. -/
theorem c9_witness :
    display cfgW failRender sW 1003 = (sW, Frame.error) ∧
    (drawBdfText true failDraw ⟨64, 32⟩ [] (FontV.face failFace) "hi" 1 2
        (255, 255, 255)).isOk = true := by
  have h1 := c9_no_propagation.1 cfgW failRender sW 1003 sW () (by rfl)
  obtain ⟨c, hc⟩ := c9_no_propagation.2 true failDraw ⟨64, 32⟩ []
    (FontV.face failFace) "hi" 1 2 (255, 255, 255)
  exact ⟨h1, by rw [hc]; rfl⟩

/-- C2, counterexample to the claim as stated: a token that alone exceeds
`max_width` but arrives while the current line is non-empty is started as
the new current line without being measured, and is later flushed as-is —
so the output contains a line that neither ends in "..." nor fits. -/
theorem c2_counterexample :
    wrapText measure6 "a abcdefghij" 12 10 = ["a", "abcdefghij"] ∧
    ends3Dots "abcdefghij" = false ∧
    ¬ measure6 "abcdefghij" ≤ 12 := by decide

/-- C2 (amended): every line returned by the wrapper fits within
`max_width`, except that a line may be a single whitespace-delimited
token of the input (the unmeasured case above), may be a truncation line
ending in "...", or is the single empty line returned for empty input. -/
theorem c2_wrap_width_bound_amended (measure : String → Nat) (text : String)
    (max_width max_lines : Nat) :
    ∀ L ∈ wrapText measure text max_width max_lines,
      measure L ≤ max_width ∨ L ∈ pySplit text ∨ ends3Dots L = true ∨ L = "" := by
  intro L hL
  by_cases ht : text = ""
  · rw [ht] at hL
    simp [wrapText] at hL
    exact Or.inr (Or.inr (Or.inr hL))
  · have hwt : wrapText measure text max_width max_lines =
        (if ¬ (wrapLoop measure max_width max_lines (pySplit text) [] []).2.isEmpty ∧
            (wrapLoop measure max_width max_lines (pySplit text) [] []).1.length < max_lines
         then (wrapLoop measure max_width max_lines (pySplit text) [] []).1 ++
              [pyJoin " " (wrapLoop measure max_width max_lines (pySplit text) [] []).2]
         else (wrapLoop measure max_width max_lines (pySplit text) [] []).1).take
          max_lines := by
      rw [wrapText, if_neg ht]
    rw [hwt] at hL
    have hL2 := List.take_subset _ _ hL
    obtain ⟨hlines, hcur⟩ := wrapLoop_good measure max_width max_lines
      (pySplit text) (pySplit text) [] [] (fun w h => h)
      (fun L h => absurd h (List.not_mem_nil L)) (fun h => absurd rfl h)
    set st := wrapLoop measure max_width max_lines (pySplit text) [] [] with hst
    by_cases hco : ¬ st.2.isEmpty ∧ st.1.length < max_lines
    · rw [if_pos hco] at hL2
      rcases List.mem_append.mp hL2 with h | h
      · have hg := hlines L h
        unfold GoodLine at hg
        tauto
      · rw [List.mem_singleton.mp h]
        have hne : st.2 ≠ [] := fun h0 => hco.1 (by rw [h0]; rfl)
        have hg := hcur hne
        unfold GoodLine at hg
        tauto
    · rw [if_neg hco] at hL2
      have hg := hlines L hL2
      unfold GoodLine at hg
      tauto

/-- Witness for C2: the short first line of the counterexample input is a
returned line, and it satisfies the amended guarantee. -/
theorem c2_witness :
    measure6 "a" ≤ 12 ∨ "a" ∈ pySplit "a abcdefghij" ∨
      ends3Dots "a" = true ∨ "a" = "" :=
  c2_wrap_width_bound_amended measure6 "a abcdefghij" 12 10 "a" (by decide)

/-- C8: when the wrapper meets a token that alone exceeds `max_width`
while the accumulating line is empty, it emits as its own line the
longest end-truncation of the token that fits with `"..."` appended
(characters being removed one at a time from the end, re-measuring each
time), or the first 10 characters plus `"..."` if no non-empty truncation
ever fits; the accumulating line stays empty. -/
theorem c8_overlong_token_truncation (measure : String → Nat)
    (max_width : Nat) (lines : List String) (word : String)
    (hBig : ¬ measure word ≤ max_width) :
    (processWord measure max_width lines [] word).2 = [] ∧
    ((∃ k, 1 ≤ k ∧ k ≤ word.data.length ∧
        measure (String.mk (word.data.take k) ++ "...") ≤ max_width ∧
        (∀ j, k < j → j ≤ word.data.length →
          ¬ measure (String.mk (word.data.take j) ++ "...") ≤ max_width) ∧
        (processWord measure max_width lines [] word).1 =
          lines ++ [String.mk (word.data.take k) ++ "..."]) ∨
      ((∀ j, 1 ≤ j → j ≤ word.data.length →
          ¬ measure (String.mk (word.data.take j) ++ "...") ≤ max_width) ∧
        (processWord measure max_width lines [] word).1 =
          lines ++ [String.mk (word.data.take 10) ++ "..."])) := by
  have hPW : processWord measure max_width lines [] word =
      match truncRev measure max_width word.data.reverse with
      | some t => (lines ++ [t], [])
      | none => (lines ++ [String.mk (word.data.take 10) ++ "..."], []) := by
    unfold processWord
    simp only [List.isEmpty_nil, if_true, not_true, if_false, hBig,
      List.nil_append]
  have hrev : word.data.reverse.reverse = word.data := List.reverse_reverse _
  have hrevlen : word.data.reverse.length = word.data.length :=
    List.length_reverse _
  rcases truncRev_char measure max_width word.data.reverse with
    ⟨k, hk1, hkle, hfitk, hmax, heq⟩ | ⟨hall, heq⟩
  · rw [hrev] at hfitk hmax heq
    rw [hrevlen] at hkle hmax
    refine ⟨by rw [hPW, heq], Or.inl ⟨k, hk1, hkle, hfitk, hmax, by rw [hPW, heq]⟩⟩
  · rw [hrev] at hall
    rw [hrevlen] at hall
    refine ⟨by rw [hPW, heq], Or.inr ⟨hall, by rw [hPW, heq]⟩⟩

/-- Witness for C8: for the fallback measure and `max_width = 30`, the
8-character token "abcdefgh" is overlong; the loop keeps the longest
2-character truncation, emitting "ab...". -/
theorem c8_witness :
    (¬ measure6 "abcdefgh" ≤ 30) ∧
    ((processWord measure6 30 [] [] "abcdefgh").2 = [] ∧
      ((∃ k, 1 ≤ k ∧ k ≤ "abcdefgh".data.length ∧
          measure6 (String.mk ("abcdefgh".data.take k) ++ "...") ≤ 30 ∧
          (∀ j, k < j → j ≤ "abcdefgh".data.length →
            ¬ measure6 (String.mk ("abcdefgh".data.take j) ++ "...") ≤ 30) ∧
          (processWord measure6 30 [] [] "abcdefgh").1 =
            [] ++ [String.mk ("abcdefgh".data.take k) ++ "..."]) ∨
        ((∀ j, 1 ≤ j → j ≤ "abcdefgh".data.length →
            ¬ measure6 (String.mk ("abcdefgh".data.take j) ++ "...") ≤ 30) ∧
          (processWord measure6 30 [] [] "abcdefgh").1 =
            [] ++ [String.mk ("abcdefgh".data.take 10) ++ "..."]))) :=
  ⟨by decide, c8_overlong_token_truncation measure6 30 [] "abcdefgh" (by decide)⟩

end Claims

end OfTheDay
